import Mathlib

/-!
Verification of the RSS feed validator (`scripts/verify_rss.go`).

Go strings are embedded as `List Char`; Go's `time.Time` values produced by
`time.Parse(time.RFC1123Z, _)` are embedded as `GoTime` (seconds since the
Unix epoch, nanoseconds, and the fixed zone offset in minutes).  The parser
and formatter below are a faithful specialisation of Go's `time.Parse` and
`time.Format` to the single layout the program uses,
`time.RFC1123Z = "Mon, 02 Jan 2006 15:04:05 -0700"`.
-/

/-- Go strings, embedded as lists of characters. -/
abbrev Str := List Char

/-- Whether `'0' <= c <= '9'`, as in Go's `isDigit`. -/
def isDigitCh (c : Char) : Bool := decide ('0' ≤ c) && decide (c ≤ '9')

/-- Numeric value of a digit character (Go's `c - '0'`). -/
def digitVal (c : Char) : Nat := c.toNat - 48

/-- Decimal value of a digit list (Go's `atoi` on an all-digit string). -/
def digitsToNat (ds : Str) : Nat := ds.foldl (fun acc c => acc * 10 + digitVal c) 0

/-- Go `time`'s case-insensitive ASCII comparison of two characters
(`match`): equal bytes, or both fold (via `| 0x20`) to the same lowercase
letter. -/
def matchCIChar (a b : Char) : Bool :=
  a == b ||
    (let la := a.toNat ||| 32
     let lb := b.toNat ||| 32
     la == lb && decide (97 ≤ la) && decide (la ≤ 122))

/-- If `name` is a case-insensitive prefix of `v`, return the rest of `v`
(Go's `len(v) >= len(name) && match(name, v[:len(name)])`, with the
remainder `v[len(name):]`). -/
def stripCI : Str → Str → Option Str
  | [], v => some v
  | _ :: _, [] => none
  | n :: ns, c :: cs => if matchCIChar n c then stripCI ns cs else none

/-- Go `time.lookup`: first entry of the table that is a case-insensitive
prefix of `v`; returns its index and the remaining input. -/
def lookupNameAux : List Str → Nat → Str → Option (Nat × Str)
  | [], _, _ => none
  | n :: tab, i, v =>
    match stripCI n v with
    | some rest => some (i, rest)
    | none => lookupNameAux tab (i + 1) v

/-- Go `time.lookup` over a name table. -/
def lookupName (tab : List Str) (v : Str) : Option (Nat × Str) :=
  lookupNameAux tab 0 v

/-- Go `time.shortDayNames`. -/
def shortDayNames : List Str :=
  [['S','u','n'], ['M','o','n'], ['T','u','e'], ['W','e','d'],
   ['T','h','u'], ['F','r','i'], ['S','a','t']]

/-- Go `time.shortMonthNames`. -/
def shortMonthNames : List Str :=
  [['J','a','n'], ['F','e','b'], ['M','a','r'], ['A','p','r'],
   ['M','a','y'], ['J','u','n'], ['J','u','l'], ['A','u','g'],
   ['S','e','p'], ['O','c','t'], ['N','o','v'], ['D','e','c']]

/-- The three-letter weekday name with index `n` (`0 = Sun`). -/
def dayName (n : Nat) : Str := shortDayNames.getD n []

/-- The three-letter month name with index `n` (`0 = Jan`). -/
def monthName (n : Nat) : Str := shortMonthNames.getD n []

/-- Go `time.getnum` with `fixed = true`: exactly two digits.  With
`fixed = false`: one digit when the second character is not a digit. -/
def getnum2 (fixed : Bool) : Str → Option (Nat × Str)
  | [] => none
  | [c1] => if isDigitCh c1 && !fixed then some (digitVal c1, []) else none
  | c1 :: c2 :: rest =>
    if isDigitCh c1 then
      if isDigitCh c2 then some (digitVal c1 * 10 + digitVal c2, rest)
      else if fixed then none
      else some (digitVal c1, c2 :: rest)
    else none

/-- The four-digit year field of Go's `stdLongYear`. -/
def getnum4 : Str → Option (Nat × Str)
  | a :: b :: c :: d :: rest =>
    if isDigitCh a && isDigitCh b && isDigitCh c && isDigitCh d then
      some (digitVal a * 1000 + digitVal b * 100 + digitVal c * 10 + digitVal d, rest)
    else none
  | _ => none

/-- Go `time.cutspace`: drop leading spaces. -/
def cutSpaces (v : Str) : Str := v.dropWhile (· == ' ')

/-- Go `time.skip` on the layout fragment `" "`: an empty input is accepted
unchanged; otherwise the input must start with a space and all leading
spaces are consumed. -/
def skipSpace : Str → Option Str
  | [] => some []
  | c :: rest => if c == ' ' then some (cutSpaces rest) else none

/-- Go `time.skip` on the layout fragment `", "`. -/
def skipComma : Str → Option Str
  | ',' :: rest => skipSpace rest
  | _ => none

/-- Go `time.skip` on the layout fragment `":"`. -/
def skipColon : Str → Option Str
  | ':' :: rest => some rest
  | _ => none

/-- Go `time.parseNanoseconds` scaling: at most nine fractional digits are
kept and scaled up to nanoseconds. -/
def nsecOfDigits (ds : Str) : Nat :=
  let ds9 := ds.take 9
  digitsToNat ds9 * 10 ^ (9 - ds9.length)

/-- Go `time.Parse`'s special case after the seconds field: a `.` or `,`
followed by at least one digit is consumed as a fractional second even
though the layout has none. -/
def parseFrac : Str → Nat × Str
  | c :: d :: rest =>
    if (c == '.' || c == ',') && isDigitCh d then
      (nsecOfDigits ((d :: rest).takeWhile isDigitCh), (d :: rest).dropWhile isDigitCh)
    else (0, c :: d :: rest)
  | s => (0, s)

/-- Go `time.Parse` on the `stdNumTZ` field `-0700`: a sign and four digits,
yielding the zone offset in minutes. -/
def parseNumTZ : Str → Option (Int × Str)
  | sg :: h1 :: h2 :: m1 :: m2 :: rest =>
    if isDigitCh h1 && isDigitCh h2 && isDigitCh m1 && isDigitCh m2 then
      let mins : Nat := (digitVal h1 * 10 + digitVal h2) * 60 + (digitVal m1 * 10 + digitVal m2)
      if sg == '+' then some (Int.ofNat mins, rest)
      else if sg == '-' then some (-(Int.ofNat mins : Int), rest)
      else none
    else none
  | _ => none

/-- Go `time.isLeap`. -/
def isLeap (y : Int) : Bool := y % 4 == 0 && (y % 100 != 0 || y % 400 == 0)

/-- Go `time.daysIn`: number of days of month `m` (1–12) in year `y`. -/
def daysIn (m : Nat) (y : Int) : Nat :=
  if m == 2 && isLeap y then 29
  else [31, 28, 31, 30, 31, 30, 31, 31, 30, 31, 30, 31].getD (m - 1) 0

/-- Days from the Unix epoch to the proleptic-Gregorian date `y-m-d`
(the mapping Go's `time.Date` implements). -/
def daysFromCivil (y : Int) (m d : Nat) : Int :=
  let yy : Int := if m ≤ 2 then y - 1 else y
  let era : Int := yy.fdiv 400
  let yoe : Nat := (yy - era * 400).toNat
  let mp : Nat := (m + 9) % 12
  let doy : Nat := (153 * mp + 2) / 5 + d - 1
  let doe : Nat := yoe * 365 + yoe / 4 - yoe / 100 + doy
  era * 146097 + (doe : Int) - 719468

/-- Proleptic-Gregorian date of day number `z` (days since the Unix epoch);
inverse of `daysFromCivil` (the mapping Go's `absDate` implements). -/
def civilFromDays (z0 : Int) : Int × Nat × Nat :=
  let z : Int := z0 + 719468
  let era : Int := z.fdiv 146097
  let doe : Nat := (z - era * 146097).toNat
  let yoe : Nat := (doe - doe / 1460 + doe / 36524 - doe / 146096) / 365
  let y : Int := (yoe : Int) + era * 400
  let doy : Nat := doe - (365 * yoe + yoe / 4 - yoe / 100)
  let mp : Nat := (5 * doy + 2) / 153
  let d : Nat := doy - (153 * mp + 2) / 5 + 1
  let m : Nat := if mp < 10 then mp + 3 else mp - 9
  (if m ≤ 2 then y + 1 else y, m, d)

/-- The result of `time.Parse(time.RFC1123Z, _)`: seconds since the Unix
epoch, nanoseconds, and the parsed fixed-zone offset in minutes (Go stores
the offset in seconds; `RFC1123Z` offsets are whole minutes). -/
structure GoTime where
  unix : Int
  nanos : Nat
  offsetMin : Int
deriving DecidableEq, Repr

/-- Go `time.Parse(time.RFC1123Z, _)` from the clock on: the layout
fragments `"15" ":" "04" ":" "05" " " "-0700"`, the per-field range checks,
the optional fractional second, the trailing-text check, and the
day-of-month check, then the construction of the parsed time. -/
def parseClock (day monIdx year : Nat) (v7 : Str) : Option GoTime :=
  match getnum2 false v7 with
  | none => none
  | some (hour, v8) =>
    if 24 ≤ hour then none else
    match skipColon v8 with
    | none => none
    | some v9 =>
      match getnum2 true v9 with
      | none => none
      | some (minute, v10) =>
        if 60 ≤ minute then none else
        match skipColon v10 with
        | none => none
        | some v11 =>
          match getnum2 true v11 with
          | none => none
          | some (sec, v12) =>
            if 60 ≤ sec then none else
            match parseFrac v12 with
            | (nsec, v13) =>
              match skipSpace v13 with
              | none => none
              | some v14 =>
                match parseNumTZ v14 with
                | none => none
                | some (offMin, v15) =>
                  if !v15.isEmpty then none else
                  let month := monIdx + 1
                  if day < 1 || daysIn month (Int.ofNat year) < day then none else
                  some { unix := daysFromCivil (Int.ofNat year) month day * 86400
                           + (Int.ofNat (hour * 3600 + minute * 60 + sec)) - offMin * 60
                         nanos := nsec
                         offsetMin := offMin }

/-- Go `time.Parse(time.RFC1123Z, _)` after the weekday name, date part:
the layout fragments `", " "02" " " "Jan" " " "2006" " "` followed by the
clock, zone and range checks of `parseClock`. -/
def parseAfterWeekday (v0 : Str) : Option GoTime :=
  match skipComma v0 with
  | none => none
  | some v1 =>
    match getnum2 true v1 with
    | none => none
    | some (day, v2) =>
      match skipSpace v2 with
      | none => none
      | some v3 =>
        match lookupName shortMonthNames v3 with
        | none => none
        | some (monIdx, v4) =>
          match skipSpace v4 with
          | none => none
          | some v5 =>
            match getnum4 v5 with
            | none => none
            | some (year, v6) =>
              match skipSpace v6 with
              | none => none
              | some v7 => parseClock day monIdx year v7

/-- Go `time.Parse(time.RFC1123Z, str)`: the weekday name is parsed (it must
be one of the seven short names) but its value is ignored. -/
def timeParseRFC1123Z (s : Str) : Option GoTime :=
  match lookupName shortDayNames s with
  | some (_, v) => parseAfterWeekday v
  | none => none

/-- Go `time.appendInt`: decimal digits of `n`, zero-padded on the left to
width `w`, with a leading `-` for negative `n`. -/
def appendIntPad (w : Nat) (n : Int) : Str :=
  let ds := Nat.toDigits 10 n.natAbs
  let padded := List.replicate (w - ds.length) '0' ++ ds
  if n < 0 then '-' :: padded else padded

/-- Go `time.Format` on the `stdNumTZ` field: sign, then zone hours and
minutes, two digits each. -/
def formatNumTZ (offMin : Int) : Str :=
  let sign : Char := if offMin < 0 then '-' else '+'
  let z : Nat := offMin.natAbs
  sign :: (appendIntPad 2 (Int.ofNat (z / 60)) ++ appendIntPad 2 (Int.ofNat (z % 60)))

/-- Weekday (0 = Sunday) of a `GoTime`'s wall clock in its own zone, as Go's
`Time.Weekday` computes it (day 0 = 1970-01-01 was a Thursday). -/
def fmtWeekdayNum (t : GoTime) : Nat :=
  (((t.unix + t.offsetMin * 60).fdiv 86400 + 4).emod 7).toNat

/-- Go `t.Format(time.RFC1123Z)` after the weekday name. -/
def fmtAfterWeekday (t : GoTime) : Str :=
  let localAbs : Int := t.unix + t.offsetMin * 60
  let days : Int := localAbs.fdiv 86400
  let secOfDay : Nat := (localAbs.emod 86400).toNat
  match civilFromDays days with
  | (y, m, d) =>
    [',', ' '] ++ appendIntPad 2 (Int.ofNat d) ++ [' ']
      ++ monthName (m - 1) ++ [' ']
      ++ appendIntPad 4 y ++ [' ']
      ++ appendIntPad 2 (Int.ofNat (secOfDay / 3600)) ++ [':']
      ++ appendIntPad 2 (Int.ofNat (secOfDay / 60 % 60)) ++ [':']
      ++ appendIntPad 2 (Int.ofNat (secOfDay % 60)) ++ [' ']
      ++ formatNumTZ t.offsetMin

/-- Go `t.Format(time.RFC1123Z)` for a time parsed by
`timeParseRFC1123Z`: the wall clock is rendered in the time's own fixed
zone, with the weekday recomputed from the date. -/
def timeFormatRFC1123Z (t : GoTime) : Str :=
  dayName (fmtWeekdayNum t) ++ fmtAfterWeekday t

/-- Go `t.Equal(u)`: instant equality — seconds and nanoseconds, the zone
offset is irrelevant. -/
def timeEqual (t u : GoTime) : Bool :=
  t.unix == u.unix && t.nanos == u.nanos

/-- One `<item>` of a feed (`Item` in the source): title, description,
publication date and GUID, all text. -/
structure Item where
  title : Str
  description : Str
  pubDate : Str
  guid : Str
deriving DecidableEq, Repr

/-- The `<channel>` of a feed (`Channel` in the source). -/
structure Channel where
  title : Str
  description : Str
  pubDate : Str
  items : List Item
deriving DecidableEq, Repr

/-- A parsed feed document (`RSS` in the source). -/
structure RSS where
  channel : Channel
deriving DecidableEq, Repr

/-- Source `validateRSSDate`: parse the string under `RFC1123Z`; on failure return
the format error, and on success reject the string unless re-formatting the
parsed time reproduces it byte for byte (the day-of-week check). -/
def validateRSSDate (str : Str) : Option Str :=
  match timeParseRFC1123Z str with
  | none => some ("invalid date format in ".data ++ str)
  | some t =>
    if str ≠ timeFormatRFC1123Z t then
      some ("day of week is not correct: expected ".data
        ++ timeFormatRFC1123Z t ++ ", got ".data ++ str)
    else none

/-- Source `RSS.validatePubDate`: `validateRSSDate` on the channel's `pubDate`,
with the `channel pub date: ` context prefix. -/
def validatePubDate (r : RSS) : Option Str :=
  match validateRSSDate r.channel.pubDate with
  | some e => some ("channel pub date: ".data ++ e)
  | none => none

/-- The loop body of `RSS.validateItemDates`: first item whose `pubDate`
fails `validateRSSDate` yields the error, naming the item's title. -/
def validateItemDatesAux : List Item → Option Str
  | [] => none
  | item :: rest =>
    match validateRSSDate item.pubDate with
    | some e => some ("item '".data ++ item.title ++ "' pub date: ".data ++ e)
    | none => validateItemDatesAux rest

/-- Source `RSS.validateItemDates`. -/
def validateItemDates (r : RSS) : Option Str :=
  validateItemDatesAux r.channel.items

/-- The loop of `RSS.validateItemGUIDs`: the `guids` set is embedded as the
list of GUIDs seen so far. -/
def validateItemGUIDsAux : List Item → List Str → Option Str
  | [], _ => none
  | item :: rest, seen =>
    if item.guid ∈ seen then some ("duplicate GUID found: ".data ++ item.guid)
    else validateItemGUIDsAux rest (item.guid :: seen)

/-- Source `RSS.validateItemGUIDs`. -/
def validateItemGUIDs (r : RSS) : Option Str :=
  validateItemGUIDsAux r.channel.items []

/-- Source `RSS.validatePubDateUpdated`: nothing to check without items; otherwise
both the channel's and the first item's `pubDate` must parse (plain
`time.Parse`, no day-of-week check) and the two parsed times must be
`Equal`. -/
def validatePubDateUpdated (r : RSS) : Option Str :=
  match r.channel.items with
  | [] => none
  | latestItem :: _ =>
    match timeParseRFC1123Z r.channel.pubDate with
    | none => some ("invalid date format in channel '".data
        ++ r.channel.pubDate ++ "'".data)
    | some chanDate =>
      match timeParseRFC1123Z latestItem.pubDate with
      | none => some ("invalid date format in item '".data
          ++ latestItem.pubDate ++ "'".data)
      | some itemDate =>
        if !timeEqual chanDate itemDate then
          some "publication dates of channel and item do not match".data
        else none

/-- Source `RSS.Validate`: run the four rules in their declaration order —
`validatePubDate`, `validateItemGUIDs`, `validateItemDates`,
`validatePubDateUpdated` — and aggregate every produced error
(`errors.Join`, embedded as the list of produced messages; the empty list
is `nil`). -/
def Validate (r : RSS) : List Str :=
  ([validatePubDate r, validateItemGUIDs r,
    validateItemDates r, validatePubDateUpdated r]).filterMap id

/-- Date string `Tue, 01 Jan 2019 00:00:00 +0000` — a valid date string
(2019-01-01 really was a Tuesday). -/
def dTue : Str := "Tue, 01 Jan 2019 00:00:00 +0000".data

/-- Date string `Mon, 31 Dec 2018 16:00:00 -0800` — the same instant as `dTue` in a
different zone (2018-12-31 really was a Monday). -/
def dMonPac : Str := "Mon, 31 Dec 2018 16:00:00 -0800".data

/-- Date string `Mon, 01 Jan 2019 00:00:00 +0000` — parseable, but the weekday token is
wrong (2019-01-01 was a Tuesday). -/
def dWrongWd : Str := "Mon, 01 Jan 2019 00:00:00 +0000".data

/-- An unparseable date string. -/
def dBad : Str := "bad".data

/-- An item with an unparseable date and GUID `g`. -/
def itemBadDate : Item :=
  { title := ['A'], description := [], pubDate := dBad, guid := ['g'] }

/-- A valid item with GUID `g`. -/
def itemTue : Item :=
  { title := ['B'], description := [], pubDate := dTue, guid := ['g'] }

/-- A valid item whose date is `dTue`'s instant written in Pacific time. -/
def itemMonPac : Item :=
  { title := ['A'], description := [], pubDate := dMonPac, guid := ['g'] }

/-- An item with an empty GUID. -/
def itemNoGuidOne : Item :=
  { title := ['A'], description := [], pubDate := dTue, guid := [] }

/-- A second item with an empty GUID. -/
def itemNoGuidTwo : Item :=
  { title := ['B'], description := [], pubDate := dTue, guid := [] }

/-- A document on which the item-date rule and the GUID rule both fail:
the channel date is valid, the first item has an unparseable date, and both
items share the GUID `g`. -/
def exC1 : RSS :=
  { channel :=
    { title := [], description := [], pubDate := dTue
      items := [itemBadDate, itemTue] } }

/-- A fully valid document. -/
def exGood : RSS :=
  { channel :=
    { title := [], description := [], pubDate := dTue, items := [itemTue] } }

/-- A document whose channel date and first-item date denote the same
instant in different zone notations. -/
def exSameInstant : RSS :=
  { channel :=
    { title := [], description := [], pubDate := dTue, items := [itemMonPac] } }

/-- A document with no items and an unparseable channel date. -/
def exEmptyBad : RSS :=
  { channel := { title := [], description := [], pubDate := dBad, items := [] } }

/-- A document with one valid item but an unparseable channel date. -/
def exBadChan : RSS :=
  { channel := { title := [], description := [], pubDate := dBad, items := [itemTue] } }

/-- A document whose channel date has a wrong weekday token but denotes the
first item's instant. -/
def exWrongWd : RSS :=
  { channel := { title := [], description := [], pubDate := dWrongWd, items := [itemTue] } }

/-- A document whose two items both have an empty GUID. -/
def exNoGuids : RSS :=
  { channel :=
    { title := [], description := [], pubDate := dTue
      items := [itemNoGuidOne, itemNoGuidTwo] } }

/-! ## Helper lemmas -/

theorem dayName_length : ∀ n, n < 7 → (dayName n).length = 3 := by decide

theorem lookup_dayName (n : Nat) (hn : n < 7) (rest : Str) :
    lookupName shortDayNames (dayName n ++ rest) = some (n, rest) := by
  interval_cases n <;> rfl

theorem fmtWeekdayNum_lt (t : GoTime) : fmtWeekdayNum t < 7 := by
  unfold fmtWeekdayNum
  have h1 : (0 : Int) ≤ ((t.unix + t.offsetMin * 60).fdiv 86400 + 4).emod 7 :=
    Int.emod_nonneg _ (by decide)
  have h2 : ((t.unix + t.offsetMin * 60).fdiv 86400 + 4).emod 7 < 7 :=
    Int.emod_lt_of_pos _ (by decide)
  omega

theorem validateItemDatesAux_eq_none (l : List Item) :
    validateItemDatesAux l = none ↔ ∀ i ∈ l, validateRSSDate i.pubDate = none := by
  induction l with
  | nil => simp [validateItemDatesAux]
  | cons i rest ih =>
    unfold validateItemDatesAux
    cases hv : validateRSSDate i.pubDate with
    | none => simp [hv, ih]
    | some e => simp [hv]

theorem validateItemDatesAux_first_failure (pre : List Item) (i : Item)
    (post : List Item) (e : Str)
    (hpre : ∀ j ∈ pre, validateRSSDate j.pubDate = none)
    (hi : validateRSSDate i.pubDate = some e) :
    validateItemDatesAux (pre ++ i :: post) =
      some ("item '".data ++ i.title ++ "' pub date: ".data ++ e) := by
  induction pre with
  | nil => simp [validateItemDatesAux, hi]
  | cons j pres ih =>
    have hj : validateRSSDate j.pubDate = none := hpre j (by simp)
    rw [List.cons_append]
    unfold validateItemDatesAux
    rw [hj]
    exact ih fun k hk => hpre k (by simp [hk])

theorem validateItemGUIDsAux_eq_none (l : List Item) (seen : List Str) :
    validateItemGUIDsAux l seen = none ↔
      (l.map Item.guid).Nodup ∧ ∀ g ∈ l.map Item.guid, g ∉ seen := by
  induction l generalizing seen with
  | nil => simp [validateItemGUIDsAux]
  | cons i rest ih =>
    unfold validateItemGUIDsAux
    by_cases hm : i.guid ∈ seen
    · simp only [if_pos hm]
      constructor
      · intro hc; exact absurd hc (by simp)
      · rintro ⟨-, hall⟩
        exact absurd hm (hall i.guid (by simp))
    · rw [if_neg hm, ih, List.map_cons]
      constructor
      · rintro ⟨hnd, hall⟩
        refine ⟨List.nodup_cons.mpr ⟨fun hmem => ?_, hnd⟩, fun g hg => ?_⟩
        · exact (hall i.guid hmem) (List.mem_cons_self _ _)
        · rcases List.mem_cons.mp hg with he | hg2
          · rw [he]; exact hm
          · exact fun hs => (hall g hg2) (List.mem_cons_of_mem _ hs)
      · rintro ⟨hnd, hall⟩
        have hni := (List.nodup_cons.mp hnd).1
        refine ⟨(List.nodup_cons.mp hnd).2, fun g hg => ?_⟩
        intro hmem
        rcases List.mem_cons.mp hmem with he | hs
        · rw [he] at hg; exact hni hg
        · exact (hall g (List.mem_cons_of_mem _ hg)) hs

theorem validateItemGUIDsAux_first_dup (pre : List Item) (i : Item) (post : List Item)
    (seen : List Str)
    (hseen : ∀ g ∈ pre.map Item.guid, g ∉ seen)
    (hnd : (pre.map Item.guid).Nodup)
    (hmem : i.guid ∈ pre.map Item.guid ∨ i.guid ∈ seen) :
    validateItemGUIDsAux (pre ++ i :: post) seen =
      some ("duplicate GUID found: ".data ++ i.guid) := by
  induction pre generalizing seen with
  | nil =>
    rcases hmem with hmem | hmem
    · simp at hmem
    · simp [validateItemGUIDsAux, hmem]
  | cons j pres ih =>
    have hj : j.guid ∉ seen := hseen j.guid (by simp)
    rw [List.map_cons] at hnd hmem
    have hji := (List.nodup_cons.mp hnd).1
    rw [List.cons_append]
    unfold validateItemGUIDsAux
    rw [if_neg hj]
    apply ih
    · intro g hg
      intro hmem2
      rcases List.mem_cons.mp hmem2 with he | hs
      · rw [he] at hg; exact hji hg
      · exact (hseen g (List.mem_cons_of_mem _ hg)) hs
    · exact (List.nodup_cons.mp hnd).2
    · rcases hmem with hmem | hmem
      · rcases List.mem_cons.mp hmem with he | hmem2
        · right; rw [he]; exact List.mem_cons_self _ _
        · left; exact hmem2
      · right; exact List.mem_cons_of_mem _ hmem

theorem validateItemGUIDsAux_shape (l : List Item) (seen : List Str) :
    validateItemGUIDsAux l seen = none ∨
      ∃ g, validateItemGUIDsAux l seen = some ("duplicate GUID found: ".data ++ g) := by
  induction l generalizing seen with
  | nil => left; rfl
  | cons i rest ih =>
    unfold validateItemGUIDsAux
    by_cases hm : i.guid ∈ seen
    · right; exact ⟨i.guid, by simp [hm]⟩
    · simpa [hm] using ih (i.guid :: seen)

/-! ## Claims -/

/-- Claim C1, counterexample: at `exC1` the combined errors do *not* appear in
the order channel date rule, item date rule, item identifier uniqueness
rule, consistency rule — the GUID error precedes the item-date error. -/
theorem C1_counterexample :
    ¬ Validate exC1 =
      ([validatePubDate exC1, validateItemDates exC1, validateItemGUIDs exC1,
        validatePubDateUpdated exC1]).filterMap id := by decide

/-- Claim C1 (amended): the Validation Orchestrator runs all four rules
unconditionally and aggregates every produced error into one combined
result, in the source's rule declaration order: channel date rule, item
identifier uniqueness rule, item date rule, channel/latest-item
consistency rule. -/
theorem C1_validate_aggregates_in_code_order (r : RSS) :
    Validate r = (validatePubDate r).toList ++ (validateItemGUIDs r).toList
      ++ (validateItemDates r).toList ++ (validatePubDateUpdated r).toList := by
  unfold Validate
  cases validatePubDate r <;> cases validateItemGUIDs r <;>
    cases validateItemDates r <;> cases validatePubDateUpdated r <;> rfl

/-- Claim C2: the Date Validator accepts `s` iff `s` parses under the fixed
`RFC1123Z` format and reformatting the parsed instant under the same
format yields `s` byte for byte. -/
theorem C2_roundtrip_law (s : Str) :
    validateRSSDate s = none ↔
      ∃ t, timeParseRFC1123Z s = some t ∧ timeFormatRFC1123Z t = s := by
  unfold validateRSSDate
  cases hp : timeParseRFC1123Z s with
  | none => simp
  | some t =>
    by_cases h : s = timeFormatRFC1123Z t
    · simp [h]
    · simp [h]
      exact fun he => absurd he.symm h

/-- Claim C4: the item date rule checks item dates in sequence order; it
returns no error iff every item's date is accepted, and on the first
rejected item it returns exactly one error naming that item's title,
whatever follows that item. -/
theorem C4_item_date_rule (r : RSS) :
    (validateItemDates r = none ↔
      ∀ i ∈ r.channel.items, validateRSSDate i.pubDate = none) ∧
    (∀ pre i post e, r.channel.items = pre ++ i :: post →
      (∀ j ∈ pre, validateRSSDate j.pubDate = none) →
      validateRSSDate i.pubDate = some e →
      validateItemDates r =
        some ("item '".data ++ i.title ++ "' pub date: ".data ++ e)) := by
  constructor
  · exact validateItemDatesAux_eq_none _
  · intro pre i post e h hpre hi
    unfold validateItemDates
    rw [h]
    exact validateItemDatesAux_first_failure pre i post e hpre hi

/-- Witness for C4 at `exC1`: the first item's bad date is reported, naming
its title. -/
theorem C4_witness :
    validateItemDates exC1 =
      some ("item '".data ++ itemBadDate.title ++ "' pub date: ".data
        ++ ("invalid date format in ".data ++ dBad)) :=
  (C4_item_date_rule exC1).2 [] itemBadDate [itemTue]
    ("invalid date format in ".data ++ dBad) rfl (by simp) (by decide)

/-- Claim C5: the item identifier uniqueness rule returns no error iff all
GUIDs are pairwise distinct, and on the first repeated GUID it returns
exactly one error naming that GUID, regardless of what follows. -/
theorem C5_guid_uniqueness_rule (r : RSS) :
    (validateItemGUIDs r = none ↔ (r.channel.items.map Item.guid).Nodup) ∧
    (∀ pre i post, r.channel.items = pre ++ i :: post →
      (pre.map Item.guid).Nodup → i.guid ∈ pre.map Item.guid →
      validateItemGUIDs r = some ("duplicate GUID found: ".data ++ i.guid)) := by
  constructor
  · unfold validateItemGUIDs
    rw [validateItemGUIDsAux_eq_none]
    simp
  · intro pre i post h hnd hmem
    unfold validateItemGUIDs
    rw [h]
    exact validateItemGUIDsAux_first_dup pre i post [] (by simp) hnd (Or.inl hmem)

/-- Witness for C5 at `exC1`: the repeated GUID `g` is reported once. -/
theorem C5_witness :
    validateItemGUIDs exC1 = some ("duplicate GUID found: ".data ++ itemTue.guid) :=
  (C5_guid_uniqueness_rule exC1).2 [itemBadDate] itemTue [] rfl (by simp) (by decide)

/-- Claim C6: the consistency rule is a no-op on zero items, and with at
least one item a parse failure of the channel date or of the first item's
date yields a format error naming the offending value. -/
theorem C6_consistency_rule_guards (r : RSS) :
    (r.channel.items = [] → validatePubDateUpdated r = none) ∧
    (∀ i rest, r.channel.items = i :: rest →
      (timeParseRFC1123Z r.channel.pubDate = none →
        validatePubDateUpdated r =
          some ("invalid date format in channel '".data
            ++ r.channel.pubDate ++ "'".data)) ∧
      (∀ t, timeParseRFC1123Z r.channel.pubDate = some t →
        timeParseRFC1123Z i.pubDate = none →
        validatePubDateUpdated r =
          some ("invalid date format in item '".data ++ i.pubDate ++ "'".data))) := by
  constructor
  · intro h
    unfold validatePubDateUpdated
    rw [h]
  · intro i rest h
    constructor
    · intro hc
      simp only [validatePubDateUpdated, h, hc]
    · intro t hc hi
      simp only [validatePubDateUpdated, h, hc, hi]

/-- Witness for C6: zero items pass despite a bad channel date; a bad
channel date or a bad first-item date is named in the error otherwise. -/
theorem C6_witness :
    validatePubDateUpdated exEmptyBad = none ∧
    validatePubDateUpdated exBadChan =
      some ("invalid date format in channel '".data ++ dBad ++ "'".data) ∧
    validatePubDateUpdated exC1 =
      some ("invalid date format in item '".data ++ dBad ++ "'".data) := by
  refine ⟨(C6_consistency_rule_guards exEmptyBad).1 rfl, ?_, ?_⟩
  · exact ((C6_consistency_rule_guards exBadChan).2 itemTue [] rfl).1 (by decide)
  · exact ((C6_consistency_rule_guards exC1).2 itemBadDate [itemTue] rfl).2
      ⟨1546300800, 0, 0⟩ (by decide) (by decide)

/-- Claim C7: with both dates parsed, the consistency rule compares the two
parsed instants (seconds and nanoseconds), not the strings: it passes iff
the instants are equal, and any instant difference yields the "dates do not
match" error. -/
theorem C7_instant_equality (r : RSS) (i : Item) (rest : List Item) (t u : GoTime)
    (h : r.channel.items = i :: rest)
    (ht : timeParseRFC1123Z r.channel.pubDate = some t)
    (hu : timeParseRFC1123Z i.pubDate = some u) :
    (validatePubDateUpdated r = none ↔ (t.unix = u.unix ∧ t.nanos = u.nanos)) ∧
    ((t.unix ≠ u.unix ∨ t.nanos ≠ u.nanos) →
      validatePubDateUpdated r =
        some "publication dates of channel and item do not match".data) := by
  simp only [validatePubDateUpdated, h, ht, hu, timeEqual]
  by_cases h1 : t.unix = u.unix
  · by_cases h2 : t.nanos = u.nanos
    · simp [h1, h2]
    · simp [h1, h2]
  · simp [h1]

/-- Witness for C7 at `exSameInstant`: two textually different date strings
in different zones denote the same instant and pass. -/
theorem C7_witness : validatePubDateUpdated exSameInstant = none :=
  ((C7_instant_equality exSameInstant itemMonPac [] ⟨1546300800, 0, 0⟩
      ⟨1546300800, 0, -480⟩ rfl (by decide) (by decide)).1).mpr ⟨rfl, rfl⟩

/-- Claim C8: a document whose channel date and item dates all pass the Date
Validator, whose GUIDs are pairwise distinct, and whose channel instant
matches the first item's instant (or which has no items) validates with an
empty error set. -/
theorem C8_valid_document (r : RSS)
    (h1 : validateRSSDate r.channel.pubDate = none)
    (h2 : ∀ i ∈ r.channel.items, validateRSSDate i.pubDate = none)
    (h3 : (r.channel.items.map Item.guid).Nodup)
    (h4 : r.channel.items = [] ∨
      ∃ i rest t u, r.channel.items = i :: rest ∧
        timeParseRFC1123Z r.channel.pubDate = some t ∧
        timeParseRFC1123Z i.pubDate = some u ∧
        t.unix = u.unix ∧ t.nanos = u.nanos) :
    Validate r = [] := by
  have hA : validatePubDate r = none := by
    unfold validatePubDate
    rw [h1]
  have hB : validateItemGUIDs r = none := by
    unfold validateItemGUIDs
    exact (validateItemGUIDsAux_eq_none _ _).mpr ⟨h3, by simp⟩
  have hC : validateItemDates r = none := by
    unfold validateItemDates
    exact (validateItemDatesAux_eq_none _).mpr h2
  have hD : validatePubDateUpdated r = none := by
    rcases h4 with h | ⟨i, rest, t, u, hit, ht, hu, h5, h6⟩
    · unfold validatePubDateUpdated
      rw [h]
    · simp only [validatePubDateUpdated, hit, ht, hu]
      simp [timeEqual, h5, h6]
  simp [Validate, hA, hB, hC, hD]

/-- Witness for C8 at `exGood`. -/
theorem C8_witness : Validate exGood = [] :=
  C8_valid_document exGood (by decide) (by decide) (by decide)
    (Or.inr ⟨itemTue, [], ⟨1546300800, 0, 0⟩, ⟨1546300800, 0, 0⟩, rfl,
      by decide, by decide, rfl, rfl⟩)

/-- Claim C9: the empty string is an ordinary identifier for the uniqueness
rule — two items with empty GUIDs make it report a duplicate error. -/
theorem C9_empty_guid_not_exempt (r : RSS) (pre mid post : List Item) (i j : Item)
    (h : r.channel.items = pre ++ i :: mid ++ j :: post)
    (hi : i.guid = []) (hj : j.guid = []) :
    ∃ g, validateItemGUIDs r = some ("duplicate GUID found: ".data ++ g) := by
  unfold validateItemGUIDs
  rcases validateItemGUIDsAux_shape r.channel.items [] with hn | hs
  · exfalso
    have hnd := ((validateItemGUIDsAux_eq_none _ _).mp hn).1
    rw [h] at hnd
    simp only [List.map_append, List.map_cons, hi, hj] at hnd
    have s1 : List.Sublist [([] : Str)] (([] : Str) :: List.map Item.guid mid) :=
      List.Sublist.cons₂ _ (List.nil_sublist _)
    have s2 : List.Sublist [([] : Str)] (([] : Str) :: List.map Item.guid post) :=
      List.Sublist.cons₂ _ (List.nil_sublist _)
    have s3 : List.Sublist [([] : Str)]
        (List.map Item.guid pre ++ (([] : Str) :: List.map Item.guid mid)) :=
      s1.trans (List.sublist_append_right _ _)
    have s4 : List.Sublist [([] : Str), []]
        ((List.map Item.guid pre ++ (([] : Str) :: List.map Item.guid mid))
          ++ (([] : Str) :: List.map Item.guid post)) :=
      s3.append s2
    have hdup := hnd.sublist s4
    simp at hdup
  · exact hs

/-- Witness for C9 at `exNoGuids`. -/
theorem C9_witness :
    ∃ g, validateItemGUIDs exNoGuids = some ("duplicate GUID found: ".data ++ g) :=
  C9_empty_guid_not_exempt exNoGuids [] [] [] itemNoGuidOne itemNoGuidTwo rfl rfl rfl

/-- Claim C10: the consistency rule parses plainly, with no day-of-week
round-trip check: if both dates parse to the same instant the rule passes,
even when the Date Validator rejects the channel date or the first item's
date (wrong weekday token). -/
theorem C10_no_roundtrip_in_consistency (r : RSS) (i : Item) (rest : List Item)
    (t u : GoTime)
    (h : r.channel.items = i :: rest)
    (ht : timeParseRFC1123Z r.channel.pubDate = some t)
    (hu : timeParseRFC1123Z i.pubDate = some u)
    (heq : t.unix = u.unix ∧ t.nanos = u.nanos)
    (hrej : validateRSSDate r.channel.pubDate ≠ none ∨
      validateRSSDate i.pubDate ≠ none) :
    validatePubDateUpdated r = none := by
  simp only [validatePubDateUpdated, h, ht, hu]
  simp [timeEqual, heq.1, heq.2]

/-- Witness for C10 at `exWrongWd`: the channel date has a wrong weekday
token (the Date Validator rejects it) yet the consistency rule passes. -/
theorem C10_witness : validatePubDateUpdated exWrongWd = none :=
  C10_no_roundtrip_in_consistency exWrongWd itemTue [] ⟨1546300800, 0, 0⟩
    ⟨1546300800, 0, 0⟩ rfl (by decide) (by decide) ⟨rfl, rfl⟩
    (Or.inl (by decide))

/-- Claim C3: for an accepted date string, changing only its weekday token to
a weekday name other than the actual weekday of the encoded date yields a
string the Date Validator rejects — with the day-of-week mismatch error
(whose expected value is the original string), not a parse failure. -/
theorem C3_wrong_weekday_rejected (s : Str) (n : Nat) (hn : n < 7)
    (hacc : validateRSSDate s = none)
    (hwd : dayName n ≠ s.take 3) :
    validateRSSDate (dayName n ++ s.drop 3) =
      some ("day of week is not correct: expected ".data ++ s ++ ", got ".data
        ++ (dayName n ++ s.drop 3)) := by
  cases hp : timeParseRFC1123Z s with
  | none =>
    simp only [validateRSSDate, hp] at hacc
    exact Option.noConfusion hacc
  | some t =>
    simp only [validateRSSDate, hp] at hacc
    have hfmt : s = timeFormatRFC1123Z t := by
      by_contra hne0
      rw [if_pos hne0] at hacc
      exact Option.noConfusion hacc
    have hwlt : fmtWeekdayNum t < 7 := fmtWeekdayNum_lt t
    have hsplit : s = dayName (fmtWeekdayNum t) ++ fmtAfterWeekday t := hfmt
    have hlenw : (dayName (fmtWeekdayNum t)).length = 3 := dayName_length _ hwlt
    have hlenn : (dayName n).length = 3 := dayName_length n hn
    have hdrop : s.drop 3 = fmtAfterWeekday t := by
      rw [hsplit, ← hlenw, List.drop_left]
    have htake : s.take 3 = dayName (fmtWeekdayNum t) := by
      rw [hsplit, ← hlenw, List.take_left]
    have hrest : parseAfterWeekday (fmtAfterWeekday t) = some t := by
      unfold timeParseRFC1123Z at hp
      rw [hsplit, lookup_dayName _ hwlt _] at hp
      exact hp
    have hp2 : timeParseRFC1123Z (dayName n ++ s.drop 3) = some t := by
      unfold timeParseRFC1123Z
      rw [hdrop, lookup_dayName n hn _]
      exact hrest
    have hne : dayName n ++ s.drop 3 ≠ timeFormatRFC1123Z t := by
      intro he
      rw [← hfmt] at he
      rw [hdrop, hsplit] at he
      have hcan := (List.append_inj he (hlenn.trans hlenw.symm)).1
      rw [htake] at hwd
      exact hwd hcan
    simp only [validateRSSDate, hp2]
    rw [if_pos hne, ← hfmt]

/-- Witness for C3: turning `dTue`'s correct `Tue` into `Mon` is rejected
with the mismatch error. -/
theorem C3_witness :
    validateRSSDate (dayName 1 ++ dTue.drop 3) =
      some ("day of week is not correct: expected ".data ++ dTue ++ ", got ".data
        ++ (dayName 1 ++ dTue.drop 3)) :=
  C3_wrong_weekday_rejected dTue 1 (by decide) (by decide) (by decide)
